import Mathlib

/-!
Verification of the InsightLens multi-provider analysis orchestration layer.

The definitions below are a shallow embedding of the Python sources:
  * `clean_text` embeds `clean_text` from
    `backend/app/services/ai_analysis_service.py` (an identical copy lives in
    `alternative_ai_service.py`);
  * the `hf_*` definitions embed the methods of `AIAnalysisService`
    (the Hugging Face adapter);
  * the `cohere_*` definitions embed the methods of
    `AlternativeAIAnalysisService` (the Cohere adapter);
  * `analyze_text_endpoint` embeds the `analyze_text` route of
    `backend/app/api/analysis.py`.

Python strings are modelled as `List Char`; the outbound HTTP call of each
adapter is abstracted as an explicit response argument (`NetResp`), and each
adapter model additionally reports whether a network request was sent.
Python floats are modelled as rationals.
-/

/-- Python strings, modelled as lists of characters. -/
abbrev Str := List Char

/-- Turn a Lean string literal into the `Str` model. -/
def str (s : String) : Str := s.data

/-- The line-break characters recognised by `str.splitlines` that occur in
practice; `"\r\n"` producing one break rather than two only differs by an
empty line, which `clean_text` filters out anyway. -/
def pyLineBreak (c : Char) : Bool :=
  c = '\n' || c = '\r' || c = '\x0b' || c = '\x0c'

/-- Whitespace as recognised by `str.strip` and the regex `\s` (ASCII core). -/
def pySpace (c : Char) : Bool :=
  c = ' ' || c = '\t' || pyLineBreak c

/-- Split a list at every character satisfying `p` (the separators are
dropped; empty segments are kept, like `str.splitlines`). -/
def splitOnPred (p : Char → Bool) : Str → List Str
  | [] => [[]]
  | c :: cs =>
    if p c then [] :: splitOnPred p cs
    else
      match splitOnPred p cs with
      | [] => [[c]]
      | l :: ls => (c :: l) :: ls

/-- Python `str.lstrip()`. -/
def lstrip (s : Str) : Str := s.dropWhile pySpace

/-- Python `str.strip()`: drop whitespace from both ends. -/
def strip (s : Str) : Str := ((lstrip s).reverse.dropWhile pySpace).reverse

/-- Order-preserving removal of duplicate lines (the `seen` set loop of
`clean_text`). -/
def dedupKeepFirst (seen : List Str) : List Str → List Str
  | [] => []
  | l :: ls =>
    if l ∈ seen then dedupKeepFirst seen ls
    else l :: dedupKeepFirst (l :: seen) ls

/-- Worker for `collapseWs`; the flag records whether the current position is
inside a whitespace run whose single `' '` was already emitted. -/
def collapseAux : Bool → Str → Str
  | _, [] => []
  | inRun, c :: cs =>
    if pySpace c then
      if inRun then collapseAux true cs
      else ' ' :: collapseAux true cs
    else c :: collapseAux false cs

/-- `re.sub(r'\s+', ' ', s)`: collapse every whitespace run to one space. -/
def collapseWs (s : Str) : Str := collapseAux false s

/-- `' '.join(xs)`. -/
def joinSp : List Str → Str
  | [] => []
  | [l] => l
  | l :: ls => l ++ ' ' :: joinSp ls

/-- `clean_text` from `ai_analysis_service.py` (lines 10-37): split into
lines, strip each, keep lines longer than one character, deduplicate
preserving order, join with single spaces, collapse whitespace runs, strip.
(`if line and len(line) > 1` is the filter below.) -/
def clean_text (text : Str) : Str :=
  if text.isEmpty then []
  else
    let lines := ((splitOnPred pyLineBreak text).map strip).filter
      (fun l => !l.isEmpty && 1 < l.length)
    let unique_lines := dedupKeepFirst [] lines
    strip (collapseWs (joinSp unique_lines))

/-! ### Invariants of `clean_text` output, towards idempotence (C4) -/

/-- The head character (if any) is not whitespace. -/
def headNS : Str → Bool
  | [] => true
  | c :: _ => !pySpace c

/-- The last character (if any) is not whitespace. -/
def lastNS (s : Str) : Bool := headNS s.reverse

/-- Every whitespace character is a plain `' '` and no two whitespace
characters are adjacent. -/
def wsNormed : Str → Bool
  | [] => true
  | c :: cs => (!pySpace c || c = ' ') && (headNS cs || !pySpace c) && wsNormed cs

/-- Number of non-whitespace characters. -/
def nsCount (s : Str) : Nat := (s.filter (fun c => !pySpace c)).length

/-- No line-break character occurs. -/
def noBreak (s : Str) : Bool := s.all (fun c => !pyLineBreak c)

/-- Structural invariant satisfied by every `clean_text` output: empty, or at
least two characters, trimmed at both ends, whitespace fully normalised and
free of line breaks. -/
def cleanedInv (y : Str) : Prop :=
  y = [] ∨ (2 ≤ y.length ∧ headNS y = true ∧ lastNS y = true ∧
    wsNormed y = true ∧ noBreak y = true)

/-! ### Data model shared by the adapters and the endpoint -/

/-- Half-to-even rounding of a rational (Python `round` on an exact value). -/
def roundHalfEven (q : ℚ) : ℤ :=
  if q - ⌊q⌋ < 1/2 then ⌊q⌋
  else if 1/2 < q - ⌊q⌋ then ⌊q⌋ + 1
  else if ⌊q⌋ % 2 = 0 then ⌊q⌋ else ⌊q⌋ + 1

/-- Python `round(x, 1)`, modelled exactly on rationals. -/
def round1 (q : ℚ) : ℚ := (roundHalfEven (q * 10) : ℚ) / 10

/-- The `result` dictionary of a successful analysis: a record with one
optional field per key any adapter ever writes. -/
structure ResultDict where
  summary : Option Str := none
  original_length : Option Nat := none
  summary_length : Option Nat := none
  /-- `compression_ratio` in the source. -/
  compression_pct : Option ℚ := none
  sentiment : Option Str := none
  confidence : Option ℚ := none
  emoji : Option Str := none
  text_analyzed : Option Str := none
  analysis : Option Str := none
  answer : Option Str := none
  context_preview : Option Str := none
  question : Option Str := none
  answer_length : Option Nat := none
  api_used : Option Str := none
deriving DecidableEq

/-- The `{'success': ..., 'result': ..., 'message': ...}` dictionary every
service method returns. -/
structure SvcResult where
  success : Bool
  result : Option ResultDict
  message : Str
deriving DecidableEq

/-- Outcome of the outbound HTTP call: either a transport/HTTP-status error
(anything `requests` raises, including `raise_for_status`) carrying the
exception text, or a parsed JSON body of the given shape. -/
inductive NetResp (α : Type) where
  | err (msg : Str)
  | ok (v : α)
deriving DecidableEq

/-- Python truthiness of an optional string (`None` and `""` are falsy). -/
def truthyOpt (o : Option Str) : Bool :=
  match o with
  | none => false
  | some s => !s.isEmpty

/-- Lowercase a string (`str.lower`, ASCII part). -/
def toLowerStr (s : Str) : Str := s.map Char.toLower

def isPrefixB : Str → Str → Bool
  | [], _ => true
  | _ :: _, [] => false
  | c :: p, d :: t => c = d && isPrefixB p t

/-- Python `pat in s` substring test. -/
def containsSub (s pat : Str) : Bool := s.tails.any (fun t => isPrefixB pat t)

/-- Python `s.split()`: split on whitespace runs, no empty words. -/
def splitWs (s : Str) : List Str :=
  (splitOnPred pySpace s).filter (fun l => !l.isEmpty)

/-! ### The Hugging Face adapter (`AIAnalysisService`) -/

/-- `AIAnalysisService.__init__` (lines 42-49): the credential read at
startup; a missing or empty `HUGGING_FACE_API_TOKEN` is silently replaced by
`"demo_token"` and never disables the service. -/
structure HFConfig where
  api_token : Str
deriving DecidableEq

def hf_init (env_token : Option Str) : HFConfig :=
  if truthyOpt env_token then ⟨env_token.getD []⟩ else ⟨str "demo_token"⟩

/-- One element of the summarization JSON list. -/
structure SummItem where
  summary_text : Option Str := none
deriving DecidableEq

/-- `AIAnalysisService._summarize_text` (lines 112-196). The HTTP call is the
`resp` argument; the boolean reports whether the request was sent. A JSON
body that is not a list takes the same branch as the empty list (identical
message in the source), so both are modelled by `.ok []`. -/
def hf_summarize_text (text0 : Str) (resp : NetResp (List SummItem)) :
    SvcResult × Bool :=
  let text := clean_text text0
  if text.length < 20 then
    ({ success := false, result := none,
       message := str "Insufficient text for summarization" }, false)
  else
    let text := if 2000 < text.length then text.take 2000 ++ str "..." else text
    match resp with
    | .err e =>
      ({ success := false, result := none,
         message := str "Network error during summarization: " ++ e }, true)
    | .ok [] =>
      ({ success := false, result := none,
         message := str "Failed to generate summary - no results returned" }, true)
    | .ok (item :: _) =>
      let summary := item.summary_text.getD []
      if (strip summary).isEmpty then
        ({ success := false, result := none,
           message := str "Generated summary is empty" }, true)
      else
        ({ success := true,
           result := some { summary := some (strip summary),
                            original_length := some text.length,
                            summary_length := some summary.length,
                            compression_pct := some (round1
                              ((summary.length : ℚ) / (text.length : ℚ) * 100)) },
           message := str "Text summarized successfully" }, true)

/-- One `{label, score}` element of the sentiment JSON list; either key may
be absent (`.get` with defaults in the source). -/
structure LabelScore where
  label : Option Str := none
  score : Option ℚ := none
deriving DecidableEq

/-- `max(result, key=lambda x: x.get('score', 0))`: first element of maximal
score, folding from the first element. -/
def pyMaxByScore : LabelScore → List LabelScore → LabelScore
  | best, [] => best
  | best, x :: xs =>
    if best.score.getD 0 < x.score.getD 0 then pyMaxByScore x xs
    else pyMaxByScore best xs

/-- The explicit label table of `_analyze_sentiment` (`label_mapping.get(label,
'Neutral')`). -/
def label_mapping (l : Str) : Str :=
  if l = str "LABEL_0" then str "Negative"
  else if l = str "LABEL_1" then str "Neutral"
  else if l = str "LABEL_2" then str "Positive"
  else str "Neutral"

/-- The fixed emoji lookup of `_analyze_sentiment` (`emoji_map.get(label,
"😐")`). -/
def emoji_map (s : Str) : Str :=
  if s = str "Positive" then str "😊"
  else if s = str "Neutral" then str "😐"
  else if s = str "Negative" then str "😞"
  else str "😐"

/-- `AIAnalysisService._analyze_sentiment` (lines 200-290). A non-list JSON
body takes the same branch as the empty list. -/
def hf_analyze_sentiment (text0 : Str) (resp : NetResp (List LabelScore)) :
    SvcResult × Bool :=
  let text := clean_text text0
  if text.length < 5 then
    ({ success := false, result := none,
       message := str "Insufficient text for sentiment analysis" }, false)
  else
    let text := if 512 < text.length then text.take 512 else text
    match resp with
    | .err e =>
      ({ success := false, result := none,
         message := str "Network error during sentiment analysis: " ++ e }, true)
    | .ok [] =>
      ({ success := false, result := none,
         message := str "Failed to analyze sentiment - no results returned" }, true)
    | .ok (i :: is) =>
      let best_result := pyMaxByScore i is
      let label := best_result.label.getD (str "neutral")
      let score := best_result.score.getD 0
      let sentiment_label := label_mapping label
      let confidence_score := min (round1 (score * 100)) 100
      ({ success := true,
         result := some { sentiment := some sentiment_label,
                          confidence := some confidence_score,
                          emoji := some (emoji_map sentiment_label),
                          text_analyzed := some (if 100 < text.length
                            then text.take 100 ++ str "..." else text) },
         message := str "Sentiment analyzed successfully" }, true)

/-- The question-answering JSON body (`answer`/`score` keys, `.get` with
defaults). -/
structure QAResp where
  answer : Option Str := none
  score : Option ℚ := none
deriving DecidableEq

/-- The fixed substitute sentence for unanswerable questions (identical in
both adapters). -/
def cannotFindAnswer : Str :=
  str "Based on the provided text, I cannot find a specific answer to your question. The information may not be present in the extracted text."

/-- The fixed context-derived marker (identical in both adapters). -/
def basedOnMarker : Str := str "[Based on extracted text] "

/-- `AIAnalysisService._answer_question` (lines 295-391). A non-dict JSON
body ("Invalid response format...") is not reachable in this model, which
fixes the parsed shape. -/
def hf_answer_question (context0 question : Str) (resp : NetResp QAResp) :
    SvcResult × Bool :=
  let context := clean_text context0
  if context.length < 10 then
    ({ success := false, result := none,
       message := str "Insufficient text extracted from image to answer questions. Please ensure the image contains readable text." }, false)
  else
    let meaningful_words := (splitWs context).filter (fun w => 2 < w.length)
    if meaningful_words.length < 5 then
      ({ success := false, result := none,
         message := str "Extracted text appears to be insufficient or contains mostly non-meaningful content. Please try with a clearer image." }, false)
    else
      let context := if 1000 < context.length
        then context.take 1000 ++ str "..." else context
      match resp with
      | .err e =>
        ({ success := false, result := none,
           message := str "Network error during question answering: " ++ e }, true)
      | .ok r =>
        let answer := r.answer.getD []
        let confidence := r.score.getD 0
        let formatted0 := strip answer
        let formatted_answer :=
          if formatted0.isEmpty ||
              [[], str "none", str "null"].contains (toLowerStr formatted0) then
            cannotFindAnswer
          else basedOnMarker ++ formatted0
        let confidence_percentage := round1 (confidence * 100)
        ({ success := true,
           result := some { answer := some formatted_answer,
                            confidence := some confidence_percentage,
                            context_preview := some (if 300 < context.length
                              then context.take 300 ++ str "..." else context),
                            question := some question,
                            answer_length := some formatted_answer.length },
           message := str "Question answered successfully" }, true)

/-! ### The Cohere adapter (`AlternativeAIAnalysisService`) -/

/-- `AlternativeAIAnalysisService.__init__` (lines 43-49): the key is stored
as read (possibly absent); only a warning is printed when missing. -/
def cohere_init (env_key : Option Str) : Option Str := env_key

/-- The summarize JSON body (`summary` key). -/
structure CohereSummResp where
  summary : Option Str := none
deriving DecidableEq

/-- `AlternativeAIAnalysisService._summarize_text` (lines 92-166). `text0` is
the text as passed by `analyze_text` (already cleaned there); note there is no
minimum-length gate before sending. -/
def cohere_summarize_text (cohere_api_key : Option Str) (text0 : Str)
    (_prompt : Option Str) (resp : NetResp CohereSummResp) : SvcResult × Bool :=
  if !truthyOpt cohere_api_key then
    ({ success := false, result := none,
       message := str "Cohere API key not configured" }, false)
  else
    let text := if 100000 < text0.length then text0.take 100000 else text0
    match resp with
    | .err e =>
      ({ success := false, result := none,
         message := str "Cohere network error: " ++ e }, true)
    | .ok r =>
      let summary := strip (r.summary.getD [])
      if summary.isEmpty then
        ({ success := false, result := none,
           message := str "Cohere returned empty summary" }, true)
      else
        ({ success := true,
           result := some { summary := some summary,
                            original_length := some text.length,
                            summary_length := some summary.length,
                            compression_pct := some (round1
                              ((summary.length : ℚ) / (text.length : ℚ) * 100)),
                            api_used := some (str "Cohere Summarize-XLarge") },
           message := str "Text summarized successfully using Cohere" }, true)

/-- One element of the `generations` list of the Cohere generate API. -/
structure Generation where
  text : Str
deriving DecidableEq

/-- The generate JSON body; `.ok ⟨[]⟩` also models a body without a
`generations` key (same "Invalid response format" branch). -/
structure CohereGenResp where
  generations : List Generation
deriving DecidableEq

/-- The emoji lookup of `_sentiment_with_cohere`; the literals in the source
file are mojibake (UTF-8 emoji bytes re-decoded), reproduced here
character-for-character. -/
def cohere_emoji_map (s : Str) : Str :=
  if s = str "Positive" then [Char.ofNat 0xF0, Char.ofNat 0x178, Char.ofNat 0x2DC, Char.ofNat 0x160]
  else if s = str "Neutral" then [Char.ofNat 0xF0, Char.ofNat 0x178, Char.ofNat 0x2DC]
  else if s = str "Negative" then [Char.ofNat 0xF0, Char.ofNat 0x178, Char.ofNat 0x2DC, Char.ofNat 0x17E]
  else [Char.ofNat 0xF0, Char.ofNat 0x178, Char.ofNat 0x2DC]

/-- `AlternativeAIAnalysisService._sentiment_with_cohere` (lines 186-281):
free-generate an analysis, then infer sentiment by substring search on the
lowercased generation. -/
def sentiment_with_cohere (_text : Str) (resp : NetResp CohereGenResp) :
    SvcResult × Bool :=
  match resp with
  | .err e =>
    ({ success := false, result := none,
       message := str "Cohere network error: " ++ e }, true)
  | .ok r =>
    match r.generations with
    | [] =>
      ({ success := false, result := none,
         message := str "Invalid response format from Cohere" }, true)
    | g :: _ =>
      let analysis := strip g.text
      let sc :=
        if containsSub (toLowerStr analysis) (str "positive") then
          (str "Positive", (85 : ℚ))
        else if containsSub (toLowerStr analysis) (str "negative") then
          (str "Negative", (85 : ℚ))
        else (str "Neutral", (50 : ℚ))
      let confidence := min sc.2 100
      ({ success := true,
         result := some { sentiment := some sc.1,
                          confidence := some confidence,
                          emoji := some (cohere_emoji_map sc.1),
                          analysis := some analysis,
                          api_used := some (str "Cohere Command") },
         message := str "Sentiment analyzed successfully using Cohere" }, true)

/-- `AlternativeAIAnalysisService._analyze_sentiment` (lines 168-184): the
key gate in front of `_sentiment_with_cohere`. -/
def cohere_analyze_sentiment (cohere_api_key : Option Str) (text : Str)
    (resp : NetResp CohereGenResp) : SvcResult × Bool :=
  if !truthyOpt cohere_api_key then
    ({ success := false, result := none,
       message := str "Cohere API key not configured" }, false)
  else sentiment_with_cohere text resp

/-- `AlternativeAIAnalysisService._question_with_cohere` (lines 318-407). -/
def question_with_cohere (context question : Str)
    (resp : NetResp CohereGenResp) : SvcResult × Bool :=
  match resp with
  | .err e =>
    ({ success := false, result := none,
       message := str "Cohere network error: " ++ e }, true)
  | .ok r =>
    match r.generations with
    | [] =>
      ({ success := false, result := none,
         message := str "Invalid response format from Cohere" }, true)
    | g :: _ =>
      let answer0 := strip g.text
      let answer :=
        if answer0.isEmpty ||
            [[], str "none", str "null"].contains (toLowerStr answer0) then
          cannotFindAnswer
        else basedOnMarker ++ answer0
      ({ success := true,
         result := some { answer := some answer,
                          confidence := some (85 : ℚ),
                          context_preview := some (if 300 < context.length
                            then context.take 300 ++ str "..." else context),
                          question := some question,
                          answer_length := some answer.length,
                          api_used := some (str "Cohere Command") },
         message := str "Question answered successfully using Cohere" }, true)

/-- `AlternativeAIAnalysisService._answer_question` (lines 283-316): context
validation, then the key gate, then `_question_with_cohere`. -/
def cohere_answer_question (cohere_api_key : Option Str)
    (context question : Str) (resp : NetResp CohereGenResp) : SvcResult × Bool :=
  if context.isEmpty || (strip context).length < 10 then
    ({ success := false, result := none,
       message := str "Insufficient text extracted from image to answer questions. Please ensure the image contains readable text." }, false)
  else if ((splitWs context).filter (fun w => 2 < w.length)).length < 5 then
    ({ success := false, result := none,
       message := str "Extracted text appears to be insufficient or contains mostly non-meaningful content. Please try with a clearer image." }, false)
  else if !truthyOpt cohere_api_key then
    ({ success := false, result := none,
       message := str "Cohere API key not configured" }, false)
  else question_with_cohere context question resp

/-! ### The orchestrating endpoint (`analysis.py::analyze_text`) -/

/-- `AnalysisType` from `schemas.py` (a `str` enum). -/
inductive AnalysisType where
  | summarize
  | sentiment
  | question
deriving DecidableEq

/-- The enum's string value. -/
def AnalysisType.value : AnalysisType → Str
  | .summarize => str "summarize"
  | .sentiment => str "sentiment"
  | .question => str "question"

/-- `AnalysisRequest` from `schemas.py`. -/
structure AnalysisRequest where
  text : Str
  analysis_type : AnalysisType
  prompt : Option Str := none
  document_id : Option Str := none
deriving DecidableEq

/-- `AnalysisResponse` from `schemas.py`, as built at lines 137-143. -/
structure AnalysisResponse where
  analysis_type : AnalysisType
  result : ResultDict
  success : Bool
  message : Str
  confidence : Option ℚ
deriving DecidableEq

/-- What the route hands back: an `HTTPException` with status and detail, or
a 200 response. -/
inductive EndpointResult where
  | httpError (status : Nat) (detail : Str)
  | ok (resp : AnalysisResponse)
deriving DecidableEq

/-- Endpoint outcome together with how many times each provider service was
invoked. -/
structure EndpointTrace where
  result : EndpointResult
  primaryCalls : Nat
  secondaryCalls : Nat
deriving DecidableEq

/-- Lines 118-121 of `analysis.py`:
`result['confidence'] = min(result['confidence'], 100.0)` when present. -/
def clampConfidence (r : ResultDict) : ResultDict :=
  match r.confidence with
  | none => r
  | some c => { r with confidence := some (min c 100) }

/-- Lines 112-143 of `analysis.py`: raise 422 on a failed final outcome,
otherwise clamp the confidence and build the response. (A success dict whose
`result` is `None` would raise `TypeError` at `'confidence' in result`,
caught by the generic handler as a 500.) -/
def finalizeOutcome (ty : AnalysisType) (r : SvcResult) (p s : Nat) :
    EndpointTrace :=
  if !r.success then ⟨.httpError 422 r.message, p, s⟩
  else
    match r.result with
    | none =>
      ⟨.httpError 500 (str "Internal server error during text analysis"), p, s⟩
    | some rd =>
      ⟨.ok { analysis_type := ty, result := clampConfidence rd, success := true,
             message := r.message,
             confidence := (clampConfidence rd).confidence }, p, s⟩

/-- The `analyze_text` route of `analysis.py` (lines 34-153). The two
services' `analyze_text` methods are abstracted as functions of
`(cleaned_text, analysis_type.value, prompt)`; `authOk` abstracts
`auth_service.get_current_user`; `cohereConfigured` is the truthiness of
`alternative_ai_service.cohere_api_key` (line 95). The Firestore write
(lines 124-135) is best-effort and does not affect the returned response.
The `if not request.analysis_type` check can never fire (the field is a
non-empty enum value). -/
def analyze_text_endpoint (req : AnalysisRequest) (authOk : Bool)
    (cohereConfigured : Bool)
    (cohereSvc hfSvc : Str → Str → Option Str → SvcResult) : EndpointTrace :=
  if req.text.isEmpty || (strip req.text).isEmpty then
    ⟨.httpError 400 (str "Text is required for analysis"), 0, 0⟩
  else if (req.analysis_type == AnalysisType.question) && !truthyOpt req.prompt then
    ⟨.httpError 400 (str "Prompt is required for question analysis"), 0, 0⟩
  else if !authOk then
    ⟨.httpError 401 (str "Invalid authentication credentials"), 0, 0⟩
  else
    let cleaned_text := clean_text req.text
    if cleaned_text.isEmpty then
      ⟨.httpError 400 (str "No meaningful text found after cleaning"), 0, 0⟩
    else if cohereConfigured then
      let r1 := cohereSvc cleaned_text req.analysis_type.value req.prompt
      if r1.success then finalizeOutcome req.analysis_type r1 1 0
      else
        finalizeOutcome req.analysis_type
          (hfSvc cleaned_text req.analysis_type.value req.prompt) 1 1
    else
      finalizeOutcome req.analysis_type
        (hfSvc cleaned_text req.analysis_type.value req.prompt) 0 1

/-! ### Concrete fixtures used by witness and counterexample theorems -/

/-- A sample input long enough to pass every validation gate. -/
def sampleText : Str := str "This is a sample piece of text for the analysis pipeline."

def req0 : AnalysisRequest :=
  { text := sampleText, analysis_type := AnalysisType.summarize }

def reqEmpty : AnalysisRequest :=
  { text := [], analysis_type := AnalysisType.summarize }

/-- A provider stub that always fails. -/
def svcFail : Str → Str → Option Str → SvcResult :=
  fun _ _ _ => { success := false, result := none, message := str "primary failure" }

def okDict : ResultDict := { summary := some (str "ok"), confidence := some 90 }

/-- A provider stub that always succeeds with confidence 90. -/
def svcOk : Str → Str → Option Str → SvcResult :=
  fun _ _ _ => { success := true, result := some okDict, message := str "secondary success" }

def bigDict : ResultDict := { summary := some (str "big"), confidence := some 150 }

/-- A provider stub reporting an out-of-range confidence of 150. -/
def svcBig : Str → Str → Option Str → SvcResult :=
  fun _ _ _ => { success := true, result := some bigDict, message := str "big success" }

def respBig : AnalysisResponse :=
  { analysis_type := AnalysisType.summarize, result := clampConfidence bigDict,
    success := true, message := str "big success",
    confidence := (clampConfidence bigDict).confidence }

def lsNeg : LabelScore := { label := some (str "LABEL_0"), score := some 0 }

def lsPos : LabelScore := { label := some (str "LABEL_2"), score := some 1 }

/-! ### Lemmas and claim theorems -/

theorem pySpace_of_break {c : Char} (h : pyLineBreak c = true) : pySpace c = true := by
  simp [pySpace, h]

theorem headNS_dropWhile (s : Str) : headNS (s.dropWhile pySpace) = true := by
  induction s with
  | nil => rfl
  | cons c cs ih =>
    by_cases h : pySpace c
    · simpa [List.dropWhile_cons, h] using ih
    · simp [List.dropWhile_cons, h, headNS]

theorem headNS_of_pre {u v : Str} (h : u <+: v) (hv : headNS v = true) :
    headNS u = true := by
  cases u with
  | nil => rfl
  | cons c cs =>
    obtain ⟨t, rfl⟩ := h
    simpa [headNS] using hv

theorem rev_pre_of_suf {u w : Str} (h : u <:+ w) : u.reverse <+: w.reverse := by
  obtain ⟨t, rfl⟩ := h
  exact ⟨t.reverse, (List.reverse_append t u).symm⟩

theorem strip_pre_lstrip (s : Str) : strip s <+: lstrip s := by
  have h2 : ((lstrip s).reverse.dropWhile pySpace) <:+ (lstrip s).reverse :=
    List.dropWhile_suffix _
  simpa [strip] using rev_pre_of_suf h2

theorem headNS_strip (s : Str) : headNS (strip s) = true :=
  headNS_of_pre (strip_pre_lstrip s) (headNS_dropWhile s)

theorem lastNS_strip (s : Str) : lastNS (strip s) = true := by
  simpa [lastNS, strip] using headNS_dropWhile (lstrip s).reverse

theorem strip_sub (s : Str) : List.Sublist (strip s) s :=
  ((strip_pre_lstrip s).sublist).trans (List.dropWhile_sublist _)

theorem dropWhile_of_headNS {t : Str} (h : headNS t = true) :
    t.dropWhile pySpace = t := by
  cases t with
  | nil => rfl
  | cons c cs =>
    simp only [headNS, Bool.not_eq_true'] at h
    simp [List.dropWhile_cons, h]

theorem strip_eq_self {y : Str} (hh : headNS y = true) (hl : lastNS y = true) :
    strip y = y := by
  rw [strip, lstrip, dropWhile_of_headNS hh, dropWhile_of_headNS hl,
    List.reverse_reverse]

theorem headNS_append_left {a b : Str} (h : a ≠ []) :
    headNS (a ++ b) = headNS a := by
  cases a with
  | nil => exact absurd rfl h
  | cons c cs => rfl

theorem lastNS_append_right {u w : Str} (h : w ≠ []) :
    lastNS (u ++ w) = lastNS w := by
  rw [lastNS, List.reverse_append, headNS_append_left (by simpa using h), lastNS]

theorem lastNS_cons {c : Char} {cs : Str} (h : cs ≠ []) :
    lastNS (c :: cs) = lastNS cs := by
  simpa using lastNS_append_right (u := [c]) h

theorem collapseAux_true_dropWhile (cs : Str) :
    collapseAux true cs = collapseAux true (cs.dropWhile pySpace) := by
  induction cs with
  | nil => rfl
  | cons c cs ih =>
    by_cases h : pySpace c
    · simpa [collapseAux, List.dropWhile_cons, h] using ih
    · simp [List.dropWhile_cons, h]

theorem collapseAux_true_of_headNS {cs : Str} (h : headNS cs = true) :
    collapseAux true cs = collapseAux false cs := by
  cases cs with
  | nil => rfl
  | cons c cs =>
    have hc : pySpace c = false := by simpa [headNS] using h
    simp [collapseAux, hc]

/-- The recursion of `collapseWs` along maximal whitespace runs. -/
theorem collapseWs_cons (c : Char) (cs : Str) :
    collapseWs (c :: cs) =
      if pySpace c then ' ' :: collapseWs (cs.dropWhile pySpace)
      else c :: collapseWs cs := by
  by_cases h : pySpace c
  · rw [if_pos h]
    show collapseAux false (c :: cs) = _
    rw [collapseAux, if_pos h, if_neg (by simp), collapseAux_true_dropWhile,
      collapseAux_true_of_headNS (headNS_dropWhile cs)]
    rfl
  · rw [if_neg h]
    show collapseAux false (c :: cs) = _
    rw [collapseAux, if_neg h]
    rfl

theorem collapseWs_induction {motive : Str → Prop} (case1 : motive [])
    (case2 : ∀ c cs, pySpace c = true → motive (cs.dropWhile pySpace) →
      motive (c :: cs))
    (case3 : ∀ c cs, ¬pySpace c = true → motive cs → motive (c :: cs)) :
    ∀ s, motive s
  | [] => case1
  | c :: cs =>
    if hc : pySpace c = true then
      case2 c cs hc
        (collapseWs_induction case1 case2 case3 (cs.dropWhile pySpace))
    else
      case3 c cs hc (collapseWs_induction case1 case2 case3 cs)
termination_by s => s.length
decreasing_by
  · simp only [List.length_cons]
    exact Nat.lt_succ_of_le (List.Sublist.length_le (List.dropWhile_sublist _))
  · simp

theorem collapseWs_eq_nil {s : Str} : collapseWs s = [] ↔ s = [] := by
  cases s with
  | nil => simp [collapseWs, collapseAux]
  | cons c cs =>
    rw [collapseWs_cons]
    split <;> simp

theorem headNS_collapseWs {s : Str} (h : headNS s = true) :
    headNS (collapseWs s) = true := by
  cases s with
  | nil => simp [collapseWs, collapseAux, headNS]
  | cons c cs =>
    simp only [headNS, Bool.not_eq_true'] at h
    rw [collapseWs_cons, if_neg (by simp [h])]
    simpa [headNS] using h

theorem wsNormed_collapseWs (s : Str) : wsNormed (collapseWs s) = true := by
  induction s using collapseWs_induction with
  | case1 => simp [collapseWs, collapseAux, wsNormed]
  | case2 c cs hc ih =>
    rw [collapseWs_cons, if_pos hc, wsNormed]
    simp only [Bool.and_eq_true]
    refine ⟨⟨by simp, ?_⟩, ih⟩
    simp [headNS_collapseWs (headNS_dropWhile cs)]
  | case3 c cs hc ih =>
    have hc' : pySpace c = false := by simpa using hc
    rw [collapseWs_cons, if_neg hc, wsNormed]
    simp [hc', ih]

theorem collapseWs_eq_self {s : Str} (h : wsNormed s = true) : collapseWs s = s := by
  induction s with
  | nil => simp [collapseWs, collapseAux]
  | cons c cs ih =>
    rw [wsNormed] at h
    simp only [Bool.and_eq_true, Bool.or_eq_true, Bool.not_eq_true',
      decide_eq_true_eq] at h
    obtain ⟨⟨h1, h2⟩, h3⟩ := h
    by_cases hc : pySpace c = true
    · have hc' : c = ' ' := by
        rcases h1 with h1 | h1
        · rw [hc] at h1; cases h1
        · exact h1
      have hcs : headNS cs = true := by
        rcases h2 with h2 | h2
        · exact h2
        · rw [hc] at h2; cases h2
      rw [collapseWs_cons, if_pos hc, dropWhile_of_headNS hcs, ih h3, hc']
    · rw [collapseWs_cons, if_neg hc, ih h3]

theorem lastNS_dropWhile {cs : Str} (h : cs.dropWhile pySpace ≠ []) :
    lastNS (cs.dropWhile pySpace) = lastNS cs := by
  obtain ⟨u, hu⟩ := List.dropWhile_suffix (l := cs) pySpace
  conv_rhs => rw [← hu]
  rw [lastNS_append_right h]

theorem lastNS_false_of_all_space {cs : Str} (hne : cs ≠ [])
    (hall : ∀ x ∈ cs, pySpace x = true) : lastNS cs = false := by
  cases htr : cs.reverse with
  | nil => exact absurd (by simpa using congrArg List.reverse htr) hne
  | cons d r =>
    have hd : d ∈ cs := by
      have : d ∈ cs.reverse := by simp [htr]
      simpa using this
    simp [lastNS, htr, headNS, hall d hd]

theorem lastNS_collapseWs {s : Str} :
    lastNS s = true → lastNS (collapseWs s) = true := by
  induction s using collapseWs_induction with
  | case1 => intro h; simpa [collapseWs, collapseAux] using h
  | case2 c cs hc ih =>
    intro h
    rcases eq_or_ne cs [] with rfl | hne
    · simp [lastNS, headNS, hc] at h
    · have hcs : lastNS cs = true := by rwa [lastNS_cons hne] at h
      rcases eq_or_ne (cs.dropWhile pySpace) [] with hdw | hdw
      · have hall : ∀ x ∈ cs, pySpace x = true := by
          intro x hx
          have := List.dropWhile_eq_nil_iff.1 hdw
          exact this x hx
        rw [lastNS_false_of_all_space hne hall] at hcs
        cases hcs
      · have h1 : lastNS (cs.dropWhile pySpace) = true := by
          rwa [lastNS_dropWhile hdw]
        have hX : collapseWs (cs.dropWhile pySpace) ≠ [] := by
          rw [Ne, collapseWs_eq_nil]
          exact hdw
        rw [collapseWs_cons, if_pos hc, lastNS_cons hX]
        exact ih h1
  | case3 c cs hc ih =>
    intro h
    rcases eq_or_ne cs [] with rfl | hne
    · simpa [collapseWs, collapseAux, hc] using h
    · have hcs : lastNS cs = true := by rwa [lastNS_cons hne] at h
      have hX : collapseWs cs ≠ [] := by
        rw [Ne, collapseWs_eq_nil]
        exact hne
      rw [collapseWs_cons, if_neg hc, lastNS_cons hX]
      exact ih hcs

theorem nsCount_dropWhile (cs : Str) : nsCount (cs.dropWhile pySpace) = nsCount cs := by
  induction cs with
  | nil => rfl
  | cons c cs ih =>
    by_cases h : pySpace c = true
    · rw [List.dropWhile_cons, if_pos h, ih]
      simp [nsCount, List.filter_cons, h]
    · rw [List.dropWhile_cons, if_neg h]

theorem nsCount_le_collapseWs (s : Str) : nsCount s ≤ (collapseWs s).length := by
  induction s using collapseWs_induction with
  | case1 => simp [collapseWs, collapseAux, nsCount]
  | case2 c cs hc ih =>
    rw [collapseWs_cons, if_pos hc]
    have h1 : nsCount (c :: cs) = nsCount cs := by
      simp [nsCount, List.filter_cons, hc]
    rw [h1, ← nsCount_dropWhile cs]
    simpa using Nat.le_succ_of_le ih
  | case3 c cs hc ih =>
    have hc' : pySpace c = false := by simpa using hc
    rw [collapseWs_cons, if_neg hc]
    have h1 : nsCount (c :: cs) = nsCount cs + 1 := by
      simp [nsCount, List.filter_cons, hc']
    rw [h1, List.length_cons]
    exact Nat.succ_le_succ ih

theorem nsCount_append (u v : Str) : nsCount (u ++ v) = nsCount u + nsCount v := by
  simp [nsCount, List.filter_append]

theorem two_le_nsCount {l : Str} (h2 : 2 ≤ l.length) (hh : headNS l = true)
    (hl : lastNS l = true) : 2 ≤ nsCount l := by
  cases l with
  | nil => simp at h2
  | cons c t =>
    have ht : t ≠ [] := by
      intro h
      rw [h] at h2
      simp at h2
    have hc : pySpace c = false := by simpa [headNS] using hh
    have hlt : lastNS t = true := by rwa [lastNS_cons ht] at hl
    obtain ⟨d, r, hdr⟩ : ∃ d r, t.reverse = d :: r := by
      cases htr : t.reverse with
      | nil => exact absurd (by simpa using congrArg List.reverse htr) ht
      | cons d r => exact ⟨d, r, rfl⟩
    have hd : pySpace d = false := by simpa [lastNS, hdr, headNS] using hlt
    have hdm : d ∈ t := by
      have : d ∈ t.reverse := by simp [hdr]
      simpa using this
    have h1 : 1 ≤ nsCount t := by
      have hmem : d ∈ t.filter (fun c => !pySpace c) :=
        List.mem_filter.2 ⟨hdm, by simp [hd]⟩
      exact List.length_pos.2 (List.ne_nil_of_mem hmem)
    have : nsCount (c :: t) = nsCount t + 1 := by
      simp [nsCount, List.filter_cons, hc]
    omega

theorem joinSp_cons₂ (l l' : Str) (ls : List Str) :
    joinSp (l :: l' :: ls) = l ++ ' ' :: joinSp (l' :: ls) := rfl

theorem joinSp_ne_nil {ws : List Str} (hne : ws ≠ [])
    (h : ∀ l ∈ ws, l ≠ []) : joinSp ws ≠ [] := by
  match ws with
  | [] => exact absurd rfl hne
  | [l] => exact h l (by simp)
  | l :: l' :: ls =>
    rw [joinSp_cons₂]
    simp [h l (by simp)]

theorem headNS_joinSp {l : Str} {rest : List Str} (hne : l ≠ [])
    (hh : headNS l = true) : headNS (joinSp (l :: rest)) = true := by
  match rest with
  | [] => exact hh
  | r :: rs =>
    rw [joinSp_cons₂, headNS_append_left hne]
    exact hh

theorem lastNS_joinSp {ws : List Str} (hne : ws ≠ [])
    (h : ∀ l ∈ ws, l ≠ [] ∧ lastNS l = true) : lastNS (joinSp ws) = true := by
  match ws with
  | [] => exact absurd rfl hne
  | [l] => exact (h l (by simp)).2
  | l :: l' :: ls =>
    rw [joinSp_cons₂]
    have hJ : joinSp (l' :: ls) ≠ [] :=
      joinSp_ne_nil (by simp) (fun a ha => (h a (List.mem_cons_of_mem _ ha)).1)
    rw [lastNS_append_right (by simp), lastNS_cons hJ]
    exact lastNS_joinSp (by simp) (fun a ha => h a (List.mem_cons_of_mem _ ha))

theorem nsCount_joinSp_head {l : Str} (rest : List Str) :
    nsCount l ≤ nsCount (joinSp (l :: rest)) := by
  match rest with
  | [] => exact Nat.le_refl _
  | r :: rs =>
    rw [joinSp_cons₂, nsCount_append]
    exact Nat.le_add_right _ _

theorem noBreak_collapseWs (s : Str) : noBreak (collapseWs s) = true := by
  induction s using collapseWs_induction with
  | case1 => simp [collapseWs, collapseAux, noBreak]
  | case2 c cs hc ih =>
    rw [collapseWs_cons, if_pos hc]
    simpa [noBreak, pyLineBreak] using ih
  | case3 c cs hc ih =>
    have hc' : pySpace c = false := by simpa using hc
    have hb : pyLineBreak c = false := by
      cases hbc : pyLineBreak c
      · rfl
      · rw [pySpace_of_break hbc] at hc'
        cases hc'
    rw [collapseWs_cons, if_neg hc]
    simpa [noBreak, hb] using ih

theorem noBreak_sub {t s : Str} (h : List.Sublist t s) (hs : noBreak s = true) :
    noBreak t = true := by
  rw [noBreak, List.all_eq_true] at *
  intro x hx
  exact hs x (h.subset hx)

theorem splitOnPred_no_match {p : Char → Bool} {y : Str}
    (h : ∀ c ∈ y, p c = false) : splitOnPred p y = [y] := by
  induction y with
  | nil => rfl
  | cons c cs ih =>
    have hc := h c (by simp)
    rw [splitOnPred, if_neg (by simp [hc]), ih (fun d hd => h d (by simp [hd]))]

theorem mem_dedupKeepFirst {a : Str} :
    ∀ {seen ls : List Str}, a ∈ dedupKeepFirst seen ls → a ∈ ls := by
  intro seen ls
  induction ls generalizing seen with
  | nil => simp [dedupKeepFirst]
  | cons l ls ih =>
    rw [dedupKeepFirst]
    split
    · intro h
      exact List.mem_cons_of_mem _ (ih h)
    · intro h
      rcases List.mem_cons.1 h with rfl | h
      · simp
      · exact List.mem_cons_of_mem _ (ih h)

theorem cleanedInv_clean_text (x : Str) : cleanedInv (clean_text x) := by
  rw [clean_text]
  by_cases hx : x.isEmpty
  · rw [if_pos hx]
    exact Or.inl rfl
  · rw [if_neg hx]
    show cleanedInv (strip (collapseWs (joinSp (dedupKeepFirst []
      (((splitOnPred pyLineBreak x).map strip).filter
        (fun l => !l.isEmpty && 1 < l.length))))))
    set lines := ((splitOnPred pyLineBreak x).map strip).filter
      (fun l => !l.isEmpty && 1 < l.length) with hlines
    set uniq := dedupKeepFirst [] lines with huniq
    have hprops : ∀ l ∈ uniq, l ≠ [] ∧ 2 ≤ l.length ∧ headNS l = true ∧
        lastNS l = true := by
      intro l hl
      have hl2 : l ∈ lines := mem_dedupKeepFirst hl
      rw [hlines, List.mem_filter] at hl2
      obtain ⟨hmap, hcond⟩ := hl2
      obtain ⟨a, _, rfl⟩ := List.mem_map.1 hmap
      simp only [Bool.and_eq_true, decide_eq_true_eq] at hcond
      exact ⟨by simpa using hcond.1, hcond.2, headNS_strip a, lastNS_strip a⟩
    cases huq : uniq with
    | nil =>
      left
      simp [huq, joinSp, collapseWs, collapseAux, strip, lstrip]
    | cons l rest =>
      right
      rw [← huq]
      have hl := hprops l (by rw [huq]; simp)
      have hJh : headNS (joinSp uniq) = true := by
        rw [huq]
        exact headNS_joinSp hl.1 hl.2.2.1
      have hJl : lastNS (joinSp uniq) = true := by
        rw [huq]
        refine lastNS_joinSp (by simp) (fun a ha => ?_)
        have := hprops a (by rw [huq]; exact ha)
        exact ⟨this.1, this.2.2.2⟩
      have hKh := headNS_collapseWs hJh
      have hKl := lastNS_collapseWs hJl
      rw [strip_eq_self hKh hKl]
      refine ⟨?_, hKh, hKl, wsNormed_collapseWs _, noBreak_collapseWs _⟩
      have h2 : 2 ≤ nsCount l := two_le_nsCount hl.2.1 hl.2.2.1 hl.2.2.2
      have h3 : nsCount l ≤ nsCount (joinSp uniq) := by
        rw [huq]
        exact nsCount_joinSp_head rest
      have h4 := nsCount_le_collapseWs (joinSp uniq)
      omega

theorem clean_text_fixed {y : Str} (h : cleanedInv y) : clean_text y = y := by
  rcases h with rfl | ⟨h2, hh, hl, hw, hb⟩
  · rfl
  · have hne : y ≠ [] := by
      intro hy
      rw [hy] at h2
      simp at h2
    have hie : y.isEmpty = false := by simpa using hne
    rw [clean_text, if_neg (by simp [hie])]
    show strip (collapseWs (joinSp (dedupKeepFirst []
      (((splitOnPred pyLineBreak y).map strip).filter
        (fun l => !l.isEmpty && 1 < l.length))))) = y
    have hsplit : splitOnPred pyLineBreak y = [y] := by
      apply splitOnPred_no_match
      intro c hc
      simpa using (List.all_eq_true.1 hb) c hc
    rw [hsplit, List.map_cons, List.map_nil, strip_eq_self hh hl]
    have hc : (!y.isEmpty && decide (1 < y.length)) = true := by
      rw [hie]
      simp only [Bool.not_false, Bool.true_and, decide_eq_true_eq]
      omega
    rw [List.filter_cons, if_pos hc, List.filter_nil]
    have hded : dedupKeepFirst [] [y] = [y] := by simp [dedupKeepFirst]
    rw [hded]
    have hj : joinSp [y] = y := rfl
    rw [hj, collapseWs_eq_self hw, strip_eq_self hh hl]

/-- C4: for every input string `x`, `clean(clean(x)) == clean(x)` — the text
normaliser `clean_text` is idempotent. -/
theorem C4_clean_text_idempotent (x : Str) :
    clean_text (clean_text x) = clean_text x :=
  clean_text_fixed (cleanedInv_clean_text x)

/-! ### Endpoint helper lemmas -/

theorem finalizeOutcome_primaryCalls (ty : AnalysisType) (r : SvcResult)
    (p s : Nat) : (finalizeOutcome ty r p s).primaryCalls = p := by
  rw [finalizeOutcome]
  split
  · rfl
  · split <;> rfl

theorem finalizeOutcome_secondaryCalls (ty : AnalysisType) (r : SvcResult)
    (p s : Nat) : (finalizeOutcome ty r p s).secondaryCalls = s := by
  rw [finalizeOutcome]
  split
  · rfl
  · split <;> rfl

theorem endpoint_unfold (req : AnalysisRequest) (cohereConfigured : Bool)
    (cohereSvc hfSvc : Str → Str → Option Str → SvcResult)
    (hstrip : (strip req.text).isEmpty = false)
    (hq : ((req.analysis_type == AnalysisType.question) && !truthyOpt req.prompt) = false)
    (hclean : (clean_text req.text).isEmpty = false) :
    analyze_text_endpoint req true cohereConfigured cohereSvc hfSvc =
      (if cohereConfigured then
        (if (cohereSvc (clean_text req.text) req.analysis_type.value req.prompt).success then
          finalizeOutcome req.analysis_type
            (cohereSvc (clean_text req.text) req.analysis_type.value req.prompt) 1 0
        else
          finalizeOutcome req.analysis_type
            (hfSvc (clean_text req.text) req.analysis_type.value req.prompt) 1 1)
      else
        finalizeOutcome req.analysis_type
          (hfSvc (clean_text req.text) req.analysis_type.value req.prompt) 0 1) := by
  have htext : req.text.isEmpty = false := by
    cases h : req.text.isEmpty
    · rfl
    · exfalso
      have hnil : req.text = [] := by simpa using h
      rw [hnil] at hstrip
      simp [strip, lstrip] at hstrip
  rw [analyze_text_endpoint]
  rw [htext, hstrip, hq]
  simp only [Bool.or_self, Bool.false_eq_true, if_false, Bool.not_true]
  rw [if_neg (by rw [hclean]; exact Bool.false_ne_true)]

/-- C1: for every request passing validation whose primary provider (Cohere)
is unconfigured or whose primary call fails, the endpoint calls the secondary
(Hugging Face) service exactly once and returns the secondary's outcome,
whatever it is: a 422 carrying the secondary's failure message, or the
secondary's successful (clamped) result. -/
theorem C1_fallback_returns_secondary (req : AnalysisRequest)
    (cohereConfigured : Bool)
    (cohereSvc hfSvc : Str → Str → Option Str → SvcResult) (sec : SvcResult)
    (hsec : hfSvc (clean_text req.text) req.analysis_type.value req.prompt = sec)
    (hstrip : (strip req.text).isEmpty = false)
    (hq : ((req.analysis_type == AnalysisType.question) && !truthyOpt req.prompt) = false)
    (hclean : (clean_text req.text).isEmpty = false)
    (hfb : cohereConfigured = false ∨
      (cohereSvc (clean_text req.text) req.analysis_type.value req.prompt).success = false) :
    (analyze_text_endpoint req true cohereConfigured cohereSvc hfSvc).secondaryCalls = 1 ∧
    (sec.success = false →
      (analyze_text_endpoint req true cohereConfigured cohereSvc hfSvc).result =
        .httpError 422 sec.message) ∧
    (∀ rd, sec.success = true → sec.result = some rd →
      (analyze_text_endpoint req true cohereConfigured cohereSvc hfSvc).result =
        .ok { analysis_type := req.analysis_type, result := clampConfidence rd,
              success := true, message := sec.message,
              confidence := (clampConfidence rd).confidence }) := by
  have hend : analyze_text_endpoint req true cohereConfigured cohereSvc hfSvc =
      finalizeOutcome req.analysis_type sec (if cohereConfigured then 1 else 0) 1 := by
    rw [endpoint_unfold req cohereConfigured cohereSvc hfSvc hstrip hq hclean]
    rcases hfb with hcc | hfail
    · rw [hcc]
      simp only [Bool.false_eq_true, if_false]
      rw [hsec]
    · cases hcc : cohereConfigured
      · simp only [Bool.false_eq_true, if_false]
        rw [hsec]
      · simp only [if_true]
        rw [if_neg (by rw [hfail]; exact Bool.false_ne_true), hsec]
  refine ⟨by rw [hend]; exact finalizeOutcome_secondaryCalls _ _ _ _, ?_, ?_⟩
  · intro hfail
    rw [hend, finalizeOutcome]
    rw [if_pos (by rw [hfail]; rfl)]
  · intro rd hsucc hrd
    rw [hend, finalizeOutcome]
    rw [if_neg (by rw [hsucc]; simp), hrd]

/-- C1 witness: with a failing primary and a succeeding secondary, the
endpoint calls the secondary once and returns its successful result. -/
theorem C1_witness :
    (analyze_text_endpoint req0 true true svcFail svcOk).secondaryCalls = 1 ∧
    (analyze_text_endpoint req0 true true svcFail svcOk).result =
      .ok { analysis_type := AnalysisType.summarize,
            result := clampConfidence okDict, success := true,
            message := str "secondary success",
            confidence := (clampConfidence okDict).confidence } := by
  have h := C1_fallback_returns_secondary req0 true svcFail svcOk
    { success := true, result := some okDict, message := str "secondary success" }
    rfl (by decide) (by decide) (by decide) (Or.inr rfl)
  exact ⟨h.1, h.2.2 okDict rfl rfl⟩

theorem clampConfidence_le {rd : ResultDict} {c : ℚ}
    (h : (clampConfidence rd).confidence = some c) : c ≤ 100 := by
  rw [clampConfidence] at h
  split at h
  · next heq =>
    rw [heq] at h
    cases h
  · next x heq =>
    simp only [Option.some.injEq] at h
    rw [← h]
    exact min_le_right _ _

theorem finalizeOutcome_ok {ty : AnalysisType} {r : SvcResult} {p s : Nat}
    {resp : AnalysisResponse}
    (h : (finalizeOutcome ty r p s).result = .ok resp) :
    ∃ rd, resp.result = clampConfidence rd ∧
      resp.confidence = (clampConfidence rd).confidence := by
  rw [finalizeOutcome] at h
  split at h
  · cases h
  · split at h
    · cases h
    · next rd heq =>
      simp only [EndpointResult.ok.injEq] at h
      exact ⟨rd, by rw [← h], by rw [← h]⟩

/-- C2: every 200 response the endpoint returns has its confidence (both in
the result dictionary and in the top-level field) clamped to at most 100,
whatever the providers reported. -/
theorem C2_confidence_le_100 (req : AnalysisRequest) (authOk cohereConfigured : Bool)
    (cohereSvc hfSvc : Str → Str → Option Str → SvcResult)
    (resp : AnalysisResponse)
    (h : (analyze_text_endpoint req authOk cohereConfigured cohereSvc hfSvc).result =
      .ok resp) :
    (∀ c, resp.result.confidence = some c → c ≤ 100) ∧
    (∀ c, resp.confidence = some c → c ≤ 100) := by
  have hex : ∃ rd, resp.result = clampConfidence rd ∧
      resp.confidence = (clampConfidence rd).confidence := by
    rw [analyze_text_endpoint] at h
    split at h
    · cases h
    · split at h
      · cases h
      · split at h
        · cases h
        · simp only at h
          split at h
          · cases h
          · split at h
            · split at h
              · exact finalizeOutcome_ok h
              · exact finalizeOutcome_ok h
            · exact finalizeOutcome_ok h
  obtain ⟨rd, h1, h2⟩ := hex
  constructor
  · intro c hc
    rw [h1] at hc
    exact clampConfidence_le hc
  · intro c hc
    rw [h2] at hc
    exact clampConfidence_le hc

/-- C2 witness: a provider reporting confidence 150 yields a response whose
confidence is 100, and the theorem bounds it by 100. -/
theorem C2_witness : respBig.confidence = some 100 ∧ (100 : ℚ) ≤ 100 :=
  ⟨by decide,
   (C2_confidence_le_100 req0 true false svcFail svcBig respBig (by decide)).2
     100 (by decide)⟩

/-- C3: a request whose text is empty (or strips to empty, or normalises to
empty after cleaning) or a Question request without a prompt is answered by a
400 validation failure with neither provider service invoked. -/
theorem C3_validation_no_provider_calls (req : AnalysisRequest)
    (cohereConfigured : Bool)
    (cohereSvc hfSvc : Str → Str → Option Str → SvcResult)
    (h : (strip req.text).isEmpty = true ∨
      ((req.analysis_type == AnalysisType.question) && !truthyOpt req.prompt) = true ∨
      (clean_text req.text).isEmpty = true) :
    (analyze_text_endpoint req true cohereConfigured cohereSvc hfSvc).primaryCalls = 0 ∧
    (analyze_text_endpoint req true cohereConfigured cohereSvc hfSvc).secondaryCalls = 0 ∧
    ∃ d, (analyze_text_endpoint req true cohereConfigured cohereSvc hfSvc).result =
      .httpError 400 d := by
  rw [analyze_text_endpoint]
  split
  · exact ⟨rfl, rfl, _, rfl⟩
  · next hc1 =>
    split
    · exact ⟨rfl, rfl, _, rfl⟩
    · next hc2 =>
      rw [if_neg (by simp)]
      simp only
      split
      · exact ⟨rfl, rfl, _, rfl⟩
      · next hc3 =>
        exfalso
        rcases h with h | h | h
        · exact hc1 (by rw [h]; simp)
        · exact hc2 h
        · exact hc3 h

/-- C3 witness: the empty-text request triggers the validation failure with
zero provider calls. -/
theorem C3_witness :
    (analyze_text_endpoint reqEmpty true true svcFail svcOk).primaryCalls = 0 ∧
    (analyze_text_endpoint reqEmpty true true svcFail svcOk).secondaryCalls = 0 :=
  ⟨(C3_validation_no_provider_calls reqEmpty true svcFail svcOk
      (Or.inl (by decide))).1,
   (C3_validation_no_provider_calls reqEmpty true svcFail svcOk
      (Or.inl (by decide))).2.1⟩

/-- C5 counterexample: the claim that both summarize adapters reject a
cleaned text shorter than 20 characters without sending is false for the
Cohere adapter: `"short text"` is 10 characters long and already clean, yet
with a configured key the Cohere summarize adapter sends the request (second
component `true`) and can even succeed. -/
theorem C5_counterexample :
    (clean_text (str "short text") = str "short text" ∧
      (str "short text").length < 20) ∧
    (cohere_summarize_text (some (str "k")) (str "short text") none
      (.ok { summary := some (str "A summary.") })).2 = true ∧
    (cohere_summarize_text (some (str "k")) (str "short text") none
      (.ok { summary := some (str "A summary.") })).1.success = true := by
  refine ⟨⟨by decide, by decide⟩, by decide, by decide⟩

/-- C5 (amended): only the Hugging Face summarize adapter enforces the
minimum-length gate — cleaned text shorter than 20 characters is rejected
with the fixed "Insufficient text for summarization" failure and no request
is sent; the Cohere summarize adapter has no such gate and, whenever its key
is configured, sends the request regardless of the text's length. -/
theorem C5_short_text_policy (text : Str) (resp : NetResp (List SummItem))
    (key : Option Str) (t2 : Str) (p2 : Option Str)
    (resp2 : NetResp CohereSummResp)
    (hshort : (clean_text text).length < 20) (hkey : truthyOpt key = true) :
    hf_summarize_text text resp =
      ({ success := false, result := none,
         message := str "Insufficient text for summarization" }, false) ∧
    (cohere_summarize_text key t2 p2 resp2).2 = true := by
  constructor
  · rw [hf_summarize_text, if_pos hshort]
  · rw [cohere_summarize_text, if_neg (by rw [hkey]; simp)]
    rcases resp2 with e | r
    · rfl
    · simp only
      split <;> rfl

/-- C5 witness: a 10-character text is rejected by the HF adapter without a
request, while the Cohere adapter sends even for a short text. -/
theorem C5_witness :
    hf_summarize_text (str "short text") (.ok []) =
      ({ success := false, result := none,
         message := str "Insufficient text for summarization" }, false) ∧
    (cohere_summarize_text (some (str "key")) (str "tiny") none
      (.err (str "boom"))).2 = true := by
  have h := C5_short_text_policy (str "short text") (.ok [])
    (some (str "key")) (str "tiny") none (.err (str "boom"))
    (by decide) (by decide)
  exact ⟨h.1, h.2⟩

/-- C6 counterexample: the claim fails for the Hugging Face provider. With
`HUGGING_FACE_API_TOKEN` absent, startup substitutes `"demo_token"` instead
of disabling the provider, the orchestrator still invokes the HF service
(here as fallback: one secondary call), and the HF summarize adapter still
sends its network request — so an unconfigured HF provider is neither skipped
nor spared a network call. -/
theorem C6_counterexample :
    hf_init none = { api_token := str "demo_token" } ∧
    (analyze_text_endpoint req0 true false svcFail svcOk).secondaryCalls = 1 ∧
    (hf_summarize_text sampleText
      (.ok [{ summary_text := some (str "A concise summary.") }])).2 = true := by
  refine ⟨by decide, by decide, by decide⟩

/-- C6 (amended): a missing credential never crashes startup for either
provider (both constructors are total: Cohere stores the absent key, HF
substitutes `"demo_token"`); an unconfigured Cohere is skipped by the
orchestrator (zero primary calls) and every Cohere adapter returns its
"not configured" outcome without sending; but the Hugging Face adapter is
never treated as unconfigured — on any validated request the orchestrator
still invokes it. -/
theorem C6_unconfigured_behavior (env : Option Str) (req : AnalysisRequest)
    (cohereSvc hfSvc : Str → Str → Option Str → SvcResult)
    (text question : Str) (p0 : Option Str) (rs : NetResp CohereSummResp)
    (rg rq : NetResp CohereGenResp)
    (hstrip : (strip req.text).isEmpty = false)
    (hq : ((req.analysis_type == AnalysisType.question) && !truthyOpt req.prompt) = false)
    (hclean : (clean_text req.text).isEmpty = false) :
    hf_init env = { api_token := if truthyOpt env then env.getD []
                    else str "demo_token" } ∧
    cohere_init none = none ∧
    cohere_summarize_text none text p0 rs =
      ({ success := false, result := none,
         message := str "Cohere API key not configured" }, false) ∧
    (cohere_analyze_sentiment none text rg).2 = false ∧
    (cohere_answer_question none text question rq).2 = false ∧
    (analyze_text_endpoint req true false cohereSvc hfSvc).primaryCalls = 0 ∧
    (analyze_text_endpoint req true false cohereSvc hfSvc).secondaryCalls = 1 := by
  refine ⟨?_, rfl, rfl, rfl, ?_, ?_, ?_⟩
  · rw [hf_init]
    split
    · rfl
    · rfl
  · rw [cohere_answer_question]
    split
    · rfl
    · split
      · rfl
      · rw [if_pos (by rfl)]
  · rw [endpoint_unfold req false cohereSvc hfSvc hstrip hq hclean]
    simp only [Bool.false_eq_true, if_false]
    exact finalizeOutcome_primaryCalls _ _ _ _
  · rw [endpoint_unfold req false cohereSvc hfSvc hstrip hq hclean]
    simp only [Bool.false_eq_true, if_false]
    exact finalizeOutcome_secondaryCalls _ _ _ _

/-- C6 witness for the amended statement, at a concrete request and absent
credentials. -/
theorem C6_witness :
    hf_init none = { api_token := str "demo_token" } ∧
    cohere_init none = none ∧
    (analyze_text_endpoint req0 true false svcFail svcOk).primaryCalls = 0 := by
  have h := C6_unconfigured_behavior none req0 svcFail svcOk sampleText
    (str "a question") none (.err (str "e")) (.err (str "e")) (.err (str "e"))
    (by decide) (by decide) (by decide)
  exact ⟨h.1, h.2.1, h.2.2.2.2.2.1⟩

/-- C7: the HF sentiment adapter maps the winning candidate's raw label
through the fixed table `LABEL_0 → Negative`, `LABEL_1 → Neutral`,
`LABEL_2 → Positive`, any other label defaulting to `Neutral`, and attaches
the emoji from the fixed lookup; in particular `LABEL_2` yields `Positive`
with the `Positive` emoji. -/
theorem C7_label_mapping (text0 : Str) (i : LabelScore) (is : List LabelScore)
    (lab : Str)
    (hlab : (pyMaxByScore i is).label.getD (str "neutral") = lab)
    (hlen : ¬(clean_text text0).length < 5) :
    ((hf_analyze_sentiment text0 (.ok (i :: is))).1.result.map
      (fun rd => (rd.sentiment, rd.emoji))) =
      some (some (label_mapping lab), some (emoji_map (label_mapping lab))) ∧
    (lab = str "LABEL_0" → label_mapping lab = str "Negative" ∧
      emoji_map (label_mapping lab) = str "😞") ∧
    (lab = str "LABEL_1" → label_mapping lab = str "Neutral" ∧
      emoji_map (label_mapping lab) = str "😐") ∧
    (lab = str "LABEL_2" → label_mapping lab = str "Positive" ∧
      emoji_map (label_mapping lab) = str "😊") ∧
    (lab ≠ str "LABEL_0" → lab ≠ str "LABEL_1" → lab ≠ str "LABEL_2" →
      label_mapping lab = str "Neutral" ∧
      emoji_map (label_mapping lab) = str "😐") := by
  subst hlab
  refine ⟨?_, ?_, ?_, ?_, ?_⟩
  · rw [hf_analyze_sentiment]
    simp only
    rw [if_neg hlen]
    rfl
  · intro h
    rw [h]
    exact ⟨by decide, by decide⟩
  · intro h
    rw [h]
    exact ⟨by decide, by decide⟩
  · intro h
    rw [h]
    exact ⟨by decide, by decide⟩
  · intro h0 h1 h2
    rw [label_mapping, if_neg h0, if_neg h1, if_neg h2]
    exact ⟨rfl, by decide⟩

/-- C7 witness: a winning candidate labelled `"LABEL_2"` produces sentiment
`Positive` with the `Positive` emoji. -/
theorem C7_witness :
    ((hf_analyze_sentiment sampleText
      (.ok [{ label := some (str "LABEL_2"), score := some 1 }])).1.result.map
        (fun rd => (rd.sentiment, rd.emoji))) =
      some (some (str "Positive"), some (str "😊")) := by
  have h := C7_label_mapping sampleText
    { label := some (str "LABEL_2"), score := some 1 } [] (str "LABEL_2") rfl
    (by decide)
  rw [h.1]
  decide

theorem answer_rule_cond (t : Str) :
    (t.isEmpty || [[], str "none", str "null"].contains (toLowerStr t)) = true ↔
      (t = [] ∨ toLowerStr t = str "none" ∨ toLowerStr t = str "null") := by
  simp [toLowerStr, List.contains]

theorem answer_if_eq (t : Str) :
    (if (t.isEmpty || [[], str "none", str "null"].contains (toLowerStr t)) = true
      then cannotFindAnswer else basedOnMarker ++ t) =
    (if t = [] ∨ toLowerStr t = str "none" ∨ toLowerStr t = str "null"
      then cannotFindAnswer else basedOnMarker ++ t) := by
  by_cases h : t = [] ∨ toLowerStr t = str "none" ∨ toLowerStr t = str "null"
  · rw [if_pos ((answer_rule_cond t).2 h), if_pos h]
  · rw [if_neg (fun hb => h ((answer_rule_cond t).1 hb)), if_neg h]

/-- C8: in both adapters' question answering, a provider answer that trims to
empty or (case-insensitively) to "none"/"null" is replaced by the fixed
cannot-find sentence, and any other answer is the trimmed answer prefixed by
the fixed context-derived marker. -/
theorem C8_answer_formatting (context0 question raw : Str) (conf : Option ℚ)
    (g2 : List Generation) (c2 q2 : Str)
    (hlen : ¬(clean_text context0).length < 10)
    (hwords : ¬((splitWs (clean_text context0)).filter
      (fun w => 2 < w.length)).length < 5) :
    ((hf_answer_question context0 question
        (.ok { answer := some raw, score := conf })).1.result.map
      (fun rd => rd.answer)) =
      some (some (if strip raw = [] ∨ toLowerStr (strip raw) = str "none" ∨
          toLowerStr (strip raw) = str "null" then cannotFindAnswer
        else basedOnMarker ++ strip raw)) ∧
    ((question_with_cohere c2 q2
        (.ok { generations := { text := raw } :: g2 })).1.result.map
      (fun rd => rd.answer)) =
      some (some (if strip raw = [] ∨ toLowerStr (strip raw) = str "none" ∨
          toLowerStr (strip raw) = str "null" then cannotFindAnswer
        else basedOnMarker ++ strip raw)) := by
  constructor
  · rw [hf_answer_question]
    simp only
    rw [if_neg hlen, if_neg hwords]
    show some (some (if ((strip raw).isEmpty ||
        [[], str "none", str "null"].contains (toLowerStr (strip raw))) = true
      then cannotFindAnswer else basedOnMarker ++ strip raw)) = _
    rw [answer_if_eq]
  · show some (some (if ((strip raw).isEmpty ||
        [[], str "none", str "null"].contains (toLowerStr (strip raw))) = true
      then cannotFindAnswer else basedOnMarker ++ strip raw)) = _
    rw [answer_if_eq]

/-- C8 witness: an answer that is entirely whitespace trims to empty, so both
adapters substitute the fixed cannot-find sentence. -/
theorem C8_witness :
    ((hf_answer_question sampleText (str "What is this?")
        (.ok { answer := some (str "  "), score := none })).1.result.map
      (fun rd => rd.answer)) = some (some cannotFindAnswer) ∧
    ((question_with_cohere sampleText (str "What is this?")
        (.ok { generations := [{ text := str "  " }] })).1.result.map
      (fun rd => rd.answer)) = some (some cannotFindAnswer) := by
  have h := C8_answer_formatting sampleText (str "What is this?") (str "  ")
    none [] sampleText (str "What is this?") (by decide) (by decide)
  constructor
  · rw [h.1]
    decide
  · rw [h.2]
    decide

/-- C9: the Cohere sentiment adapter infers sentiment by substring search on
the lowercased generation: a "positive" hit yields Positive with fixed
confidence 85.0; otherwise a "negative" hit yields Negative with 85.0;
otherwise the outcome is Neutral with fixed confidence 50.0. -/
theorem C9_keyword_sentiment (text gtext : Str) (rest : List Generation) :
    (containsSub (toLowerStr (strip gtext)) (str "positive") = true →
      ((sentiment_with_cohere text
          (.ok { generations := { text := gtext } :: rest })).1.result.map
        (fun rd => (rd.sentiment, rd.confidence))) =
        some (some (str "Positive"), some (85 : ℚ))) ∧
    (containsSub (toLowerStr (strip gtext)) (str "positive") = false →
      containsSub (toLowerStr (strip gtext)) (str "negative") = true →
      ((sentiment_with_cohere text
          (.ok { generations := { text := gtext } :: rest })).1.result.map
        (fun rd => (rd.sentiment, rd.confidence))) =
        some (some (str "Negative"), some (85 : ℚ))) ∧
    (containsSub (toLowerStr (strip gtext)) (str "positive") = false →
      containsSub (toLowerStr (strip gtext)) (str "negative") = false →
      ((sentiment_with_cohere text
          (.ok { generations := { text := gtext } :: rest })).1.result.map
        (fun rd => (rd.sentiment, rd.confidence))) =
        some (some (str "Neutral"), some (50 : ℚ))) := by
  have h85 : (85 : ℚ) ⊓ 100 = 85 := min_eq_left (by norm_num)
  have h50 : (50 : ℚ) ⊓ 100 = 50 := min_eq_left (by norm_num)
  refine ⟨?_, ?_, ?_⟩
  · intro hp
    simp only [sentiment_with_cohere, hp]
    simp [h85]
  · intro hp hn
    simp only [sentiment_with_cohere, hp, hn]
    simp [h85]
  · intro hp hn
    simp only [sentiment_with_cohere, hp, hn]
    simp [h50]

/-- C9 witness: a generation containing the word "positive" yields Positive
with confidence 85. -/
theorem C9_witness :
    ((sentiment_with_cohere sampleText
        (.ok { generations := [{ text := str "Overall the tone is positive." }] })).1.result.map
      (fun rd => (rd.sentiment, rd.confidence))) =
      some (some (str "Positive"), some (85 : ℚ)) :=
  (C9_keyword_sentiment sampleText (str "Overall the tone is positive.") []).1
    (by decide)

theorem pyMaxByScore_mem (b : LabelScore) (l : List LabelScore) :
    pyMaxByScore b l = b ∨ pyMaxByScore b l ∈ l := by
  induction l generalizing b with
  | nil => exact Or.inl rfl
  | cons x xs ih =>
    rw [pyMaxByScore]
    split
    · rcases ih x with h | h
      · right
        rw [h]
        exact List.mem_cons_self _ _
      · right
        exact List.mem_cons_of_mem _ h
    · rcases ih b with h | h
      · exact Or.inl h
      · right
        exact List.mem_cons_of_mem _ h

theorem pyMaxByScore_ge (b : LabelScore) (l : List LabelScore) :
    b.score.getD 0 ≤ (pyMaxByScore b l).score.getD 0 ∧
    ∀ x ∈ l, x.score.getD 0 ≤ (pyMaxByScore b l).score.getD 0 := by
  induction l generalizing b with
  | nil => exact ⟨le_refl _, by simp⟩
  | cons x xs ih =>
    rw [pyMaxByScore]
    split
    · next hlt =>
      obtain ⟨h1, h2⟩ := ih x
      refine ⟨le_trans (le_of_lt hlt) h1, ?_⟩
      intro y hy
      rcases List.mem_cons.1 hy with rfl | hy
      · exact h1
      · exact h2 y hy
    · next hge =>
      obtain ⟨h1, h2⟩ := ih b
      refine ⟨h1, ?_⟩
      intro y hy
      rcases List.mem_cons.1 hy with rfl | hy
      · exact le_trans (le_of_not_lt hge) h1
      · exact h2 y hy

/-- C10: the HF sentiment adapter's outcome depends only on the candidate of
maximal score (first such, missing scores read as 0): running the adapter on
the whole candidate list equals running it on the selected candidate alone,
the selected candidate is an element of the list, and its score is maximal. -/
theorem C10_max_score_selection (text0 : Str) (i : LabelScore)
    (is : List LabelScore) :
    hf_analyze_sentiment text0 (.ok (i :: is)) =
      hf_analyze_sentiment text0 (.ok [pyMaxByScore i is]) ∧
    pyMaxByScore i is ∈ i :: is ∧
    ∀ x ∈ i :: is, x.score.getD 0 ≤ (pyMaxByScore i is).score.getD 0 := by
  refine ⟨?_, ?_, ?_⟩
  · by_cases h : (clean_text text0).length < 5
    · simp [hf_analyze_sentiment, h]
    · simp [hf_analyze_sentiment, h, pyMaxByScore]
  · rcases pyMaxByScore_mem i is with h | h
    · rw [h]
      exact List.mem_cons_self _ _
    · exact List.mem_cons_of_mem _ h
  · intro x hx
    rcases List.mem_cons.1 hx with rfl | hx
    · exact (pyMaxByScore_ge x is).1
    · exact (pyMaxByScore_ge i is).2 x hx

/-- C10 witness: with two candidates the adapter's outcome equals the outcome
on the winning candidate alone, whose score dominates the other's. -/
theorem C10_witness :
    hf_analyze_sentiment sampleText (.ok [lsNeg, lsPos]) =
      hf_analyze_sentiment sampleText (.ok [pyMaxByScore lsNeg [lsPos]]) ∧
    lsNeg.score.getD 0 ≤ (pyMaxByScore lsNeg [lsPos]).score.getD 0 :=
  ⟨(C10_max_score_selection sampleText lsNeg [lsPos]).1,
   (C10_max_score_selection sampleText lsNeg [lsPos]).2.2 lsNeg (by simp)⟩
